import Mathlib

/-!
# Verification of the Expo submission-form screen

Shallow embedding of `src/app/(tabs)/index.tsx`: the submission workflow
(`handleSubmit`), the list view-model (`fetchSubmissions`) and the media
picker handler (`pickImage`) are translated into pure Lean functions over
an explicit application state, with every remote collaborator (blob fetch,
object-store upload, public-URL retrieval, database insert, database query)
supplied as an environment of response functions.  Each function returns
the resulting state together with a trace of the calls it issued and the
alerts it showed, so that "never invokes the upload" and similar claims
become statements about the trace.
-/

namespace Expo

/-- A persisted submission record (interface `Submission` in the source):
`id` and `created_at` are assigned by the remote store. -/
structure Submission where
  id : String
  name : String
  image_url : String
  created_at : Option String
  deriving Repr, DecidableEq

/-- The record handed to the database insert call:
`{ name, image_url: imageUrl }` at line 177 of the source. -/
structure InsertRecord where
  name : String
  image_url : String
  deriving Repr, DecidableEq

/-- The component state relevant to the submission workflow: the `useState`
variables `name`, `image`, `uploading`, `submissions`, `isConnected`. -/
structure AppState where
  name : String
  image : Option String
  uploading : Bool
  submissions : List Submission
  isConnected : Bool
  deriving Repr, DecidableEq

/-- JavaScript falsiness of a nullable string (`!image`): `null` and the
empty string are falsy. -/
def jsFalsy : Option String → Bool
  | none => true
  | some s => s == ""

/-- JavaScript `a || b` on strings: the fallback is used when the first
operand is falsy (empty). -/
def jsOr (s fallback : String) : String := if s = "" then fallback else s

/-- JavaScript `String.prototype.trim`: drop whitespace characters from
both ends of the string. -/
def jsTrim (s : String) : String :=
  String.mk (((s.data.dropWhile Char.isWhitespace).reverse.dropWhile
    Char.isWhitespace).reverse)

/-- JavaScript `String.prototype.split` with a single-character separator,
on character lists.  `split` never returns an empty array. -/
def splitChar (sep : Char) : List Char → List (List Char)
  | [] => [[]]
  | c :: cs =>
    if c = sep then [] :: splitChar sep cs
    else
      match splitChar sep cs with
      | [] => [[c]]
      | p :: ps => (c :: p) :: ps

/-- `uri.split(sep).pop()`: the last piece of the split (the source uses it
with `'.'` to extract the file extension, line 140). -/
def jsSplitPop (sep : Char) (s : String) : String :=
  String.mk (((splitChar sep s.data).getLast?).getD [])

/-- Response of `fetch(image)` followed by `.blob()`: HTTP-level success
flag, status code, and the blob's byte size. -/
structure BlobResponse where
  ok : Bool
  status : Nat
  size : Nat
  deriving Repr, DecidableEq

/-- Environment of remote collaborators for one submission attempt.
`now` is `Date.now()`; the other fields give each remote call's response
(`none` = success for the fallible ones, `some msg` = error with message
`msg`). -/
structure SubmitEnv where
  now : Nat
  fetchImage : String → BlobResponse
  uploadResult : String → String → Nat → Option String
  getPublicUrl : String → String → String
  insertResult : String → InsertRecord → Option String

/-- A storage upload call: bucket, object key, blob size. -/
structure UploadCall where
  bucket : String
  path : String
  size : Nat
  deriving Repr, DecidableEq

/-- A public-URL retrieval call: bucket and object key. -/
structure PublicUrlCall where
  bucket : String
  path : String
  deriving Repr, DecidableEq

/-- A database insert call: table and record. -/
structure InsertCall where
  table : String
  record : InsertRecord
  deriving Repr, DecidableEq

/-- Outcome of one `handleSubmit` run: the final state, the alerts shown
(title, message), the traces of remote calls issued, and whether the
submission-list re-fetch was triggered. -/
structure SubmitResult where
  state : AppState
  alerts : List (String × String)
  uploadCalls : List UploadCall
  publicUrlCalls : List PublicUrlCall
  insertCalls : List InsertCall
  fetchTriggered : Bool
  deriving Repr, DecidableEq

/-- Catch-all fallback message of the submit error handler (line 192). -/
def submitFallbackMsg : String := "Something went wrong while submitting your form"

/-- An early exit of `handleSubmit` that issued no remote call. -/
def noCallResult (s : AppState) (a : String × String) : SubmitResult :=
  { state := s, alerts := [a], uploadCalls := [], publicUrlCalls := []
  , insertCalls := [], fetchTriggered := false }

/-- `handleSubmit` (lines 120-197): validation, blob fetch, 5 MB size
check, storage upload, public-URL retrieval, database insert, and the
success path that resets the draft and triggers a list re-fetch.  Failure
paths go through the `catch` block (alert with the error's message) and
the `finally` block (`setUploading(false)`). -/
def handleSubmit (s : AppState) (env : SubmitEnv) : SubmitResult :=
  if jsTrim s.name = "" then
    noCallResult s ("Error", "Please enter your name")
  else if jsFalsy s.image then
    noCallResult s ("Error", "Please select an image")
  else if s.isConnected = false then
    noCallResult s ("Error", "No network connection. Please try again later.")
  else
    let img : String := s.image.getD ""
    let fileExt : String := jsSplitPop '.' img
    let fileName : String := toString env.now ++ "." ++ fileExt
    let filePath : String := fileName
    let resp : BlobResponse := env.fetchImage img
    if resp.ok = false then
      noCallResult { s with uploading := false }
        ("Error", jsOr ("Failed to fetch image: " ++ toString resp.status) submitFallbackMsg)
    else if 5 * 1024 * 1024 < resp.size then
      noCallResult { s with uploading := false }
        ("Error", "Image size must be less than 5MB")
    else
      match env.uploadResult "form_images" filePath resp.size with
      | some e =>
        { state := { s with uploading := false }
        , alerts := [("Error", jsOr e submitFallbackMsg)]
        , uploadCalls := [⟨"form_images", filePath, resp.size⟩]
        , publicUrlCalls := [], insertCalls := [], fetchTriggered := false }
      | none =>
        let imageUrl : String := env.getPublicUrl "form_images" filePath
        let record : InsertRecord := { name := s.name, image_url := imageUrl }
        match env.insertResult "form_submissions" record with
        | some e =>
          { state := { s with uploading := false }
          , alerts := [("Error", jsOr e submitFallbackMsg)]
          , uploadCalls := [⟨"form_images", filePath, resp.size⟩]
          , publicUrlCalls := [⟨"form_images", filePath⟩]
          , insertCalls := [⟨"form_submissions", record⟩]
          , fetchTriggered := false }
        | none =>
          { state := { s with name := "", image := none, uploading := false }
          , alerts := [("Success", "Your information has been saved!")]
          , uploadCalls := [⟨"form_images", filePath, resp.size⟩]
          , publicUrlCalls := [⟨"form_images", filePath⟩]
          , insertCalls := [⟨"form_submissions", record⟩]
          , fetchTriggered := true }

/-- The query request issued by `fetchSubmissions` (lines 80-83):
`from('form_submissions').select('*').order('created_at', { ascending: false })`. -/
structure QueryRequest where
  table : String
  selectCols : String
  orderBy : String
  ascending : Bool
  deriving Repr, DecidableEq

def fetchQuery : QueryRequest :=
  { table := "form_submissions", selectCols := "*"
  , orderBy := "created_at", ascending := false }

/-- Outcome of one `fetchSubmissions` run: final list state, final loading
flag, alerts shown, and the query request that was issued. -/
structure FetchResult where
  submissions : List Submission
  loadingSubmissions : Bool
  alerts : List (String × String)
  request : QueryRequest
  deriving Repr, DecidableEq

/-- `fetchSubmissions` (lines 77-93) given the query's `{ data, error }`
response: on error, alert and leave the list alone; otherwise replace the
list when `data` is present.  The `finally` clears the loading flag. -/
def fetchSubmissions (prev : List Submission)
    (data : Option (List Submission)) (error : Option String) : FetchResult :=
  match error with
  | some e =>
    { submissions := prev, loadingSubmissions := false
    , alerts := [("Error", jsOr e "Failed to load submissions")]
    , request := fetchQuery }
  | none =>
    match data with
    | some d =>
      { submissions := d, loadingSubmissions := false, alerts := []
      , request := fetchQuery }
    | none =>
      { submissions := prev, loadingSubmissions := false, alerts := []
      , request := fetchQuery }

/-- One asset returned by the image picker (only the `uri` is consumed). -/
structure Asset where
  uri : String
  deriving Repr, DecidableEq

/-- The picker's result (interface `ImagePickerResult` in the source):
`canceled` flag and an optional asset array. -/
structure ImagePickerResult where
  canceled : Bool
  assets : Option (List Asset)
  deriving Repr, DecidableEq

/-- The state update of `pickImage` (lines 103-117):
`if (!result.canceled && result.assets) setImage(result.assets[0].uri)`.
`Except.error` models the JavaScript `TypeError` thrown by
`result.assets[0].uri` when the asset array is present but empty. -/
def pickImage (result : ImagePickerResult) (image : Option String) :
    Except String (Option String) :=
  if result.canceled then Except.ok image
  else
    match result.assets with
    | none => Except.ok image
    | some [] => Except.error "TypeError: cannot read uri of undefined"
    | some (a :: _) => Except.ok (some a.uri)

/-! ## Lemmas about `splitChar` (JS `split`) -/

theorem splitChar_ne_nil (sep : Char) (l : List Char) : splitChar sep l ≠ [] := by
  cases l with
  | nil => simp [splitChar]
  | cons c cs =>
    by_cases h : c = sep
    · simp [splitChar, h]
    · simp only [splitChar, if_neg h]
      cases hs : splitChar sep cs <;> simp

theorem splitChar_of_not_mem (sep : Char) (l : List Char) (h : sep ∉ l) :
    splitChar sep l = [l] := by
  induction l with
  | nil => rfl
  | cons c cs ih =>
    have hc : c ≠ sep := fun hcc => h (hcc ▸ List.mem_cons_self c cs)
    have hcs : sep ∉ cs := fun hm => h (List.mem_cons_of_mem c hm)
    simp [splitChar, hc, ih hcs]

theorem two_le_splitChar_length (sep : Char) (l1 l2 : List Char) :
    2 ≤ (splitChar sep (l1 ++ sep :: l2)).length := by
  induction l1 with
  | nil =>
    have hp := List.length_pos.mpr (splitChar_ne_nil sep l2)
    simp [splitChar]
    omega
  | cons c cs ih =>
    by_cases hc : c = sep
    · have hp := List.length_pos.mpr (splitChar_ne_nil sep (cs ++ sep :: l2))
      simp only [List.cons_append, splitChar, if_pos hc, List.length_cons, List.append_eq]
      omega
    · simp only [List.cons_append, splitChar, if_neg hc, List.append_eq]
      cases hs : splitChar sep (cs ++ sep :: l2) with
      | nil => exact absurd hs (splitChar_ne_nil sep _)
      | cons p ps =>
        rw [hs] at ih
        simpa using ih

/-- The last piece of a split at `sep` is the suffix after the final
occurrence of `sep`. -/
theorem splitChar_getLastD (sep : Char) (l1 l2 : List Char) (h : sep ∉ l2) :
    ((splitChar sep (l1 ++ sep :: l2)).getLast?).getD [] = l2 := by
  induction l1 with
  | nil =>
    simp only [List.nil_append, splitChar, if_pos rfl]
    rw [splitChar_of_not_mem sep l2 h]
    rfl
  | cons c cs ih =>
    by_cases hc : c = sep
    · simp only [List.cons_append, splitChar, if_pos hc, List.append_eq]
      cases hs : splitChar sep (cs ++ sep :: l2) with
      | nil => exact absurd hs (splitChar_ne_nil sep _)
      | cons p ps =>
        rw [List.getLast?_cons_cons]
        rw [hs] at ih
        exact ih
    · simp only [List.cons_append, splitChar, if_neg hc, List.append_eq]
      cases hs : splitChar sep (cs ++ sep :: l2) with
      | nil => exact absurd hs (splitChar_ne_nil sep _)
      | cons p ps =>
        cases ps with
        | nil =>
          have h2 := two_le_splitChar_length sep cs l2
          rw [hs] at h2
          simp at h2
        | cons p2 ps2 =>
          rw [List.getLast?_cons_cons]
          rw [hs] at ih
          rw [List.getLast?_cons_cons] at ih
          exact ih

/-- A string with a non-blank trim is non-empty. -/
theorem ne_empty_of_trim_ne_empty {a : String} (h : jsTrim a ≠ "") : a ≠ "" := by
  intro he
  apply h
  rw [he]
  rfl

/-! ## Demonstration inputs for the witnesses -/

/-- A demonstration environment in which every remote call succeeds:
the blob is 2 MiB, upload and insert return no error. -/
def envAllOk : SubmitEnv where
  now := 1700000000000
  fetchImage := fun _ => ⟨true, 200, 2 * 1024 * 1024⟩
  uploadResult := fun _ _ _ => none
  getPublicUrl := fun _ _ => "https://cdn.example/form_images/obj"
  insertResult := fun _ _ => none

/-- Like `envAllOk` but the fetched blob is 6 MiB, over the 5 MB limit. -/
def envBigBlob : SubmitEnv :=
  { envAllOk with fetchImage := fun _ => ⟨true, 200, 6 * 1024 * 1024⟩ }

/-- Like `envAllOk` but the database insert fails. -/
def envInsertFail : SubmitEnv :=
  { envAllOk with insertResult := fun _ _ => some "permission denied" }

/-- A valid draft: non-blank name, selected image, online. -/
def draftOk : AppState :=
  { name := "Alice", image := some "file:///photos/cat.jpg"
  , uploading := false, submissions := [], isConnected := true }

/-- The insert call produced by submitting `draftOk` under `envAllOk`. -/
def demoInsertCall : InsertCall :=
  ⟨"form_submissions", ⟨"Alice", "https://cdn.example/form_images/obj"⟩⟩

/-! ## Claims -/

/-- C1: for every draft whose name is empty or whitespace-only, or that has
no selected image, or when connectivity is false at submit time,
`handleSubmit` shows a validation error and invokes neither the storage
upload call nor the database insert call. -/
theorem handleSubmit_validation_blocks (s : AppState) (env : SubmitEnv)
    (h : jsTrim s.name = "" ∨ s.image = none ∨ s.isConnected = false) :
    (∃ m, (handleSubmit s env).alerts = [("Error", m)]) ∧
    (handleSubmit s env).uploadCalls = [] ∧
    (handleSubmit s env).insertCalls = [] := by
  have key : ∃ s' m, handleSubmit s env = noCallResult s' ("Error", m) := by
    by_cases h1 : jsTrim s.name = ""
    · exact ⟨s, "Please enter your name", by simp [handleSubmit, h1]⟩
    · by_cases h2 : jsFalsy s.image
      · exact ⟨s, "Please select an image", by simp [handleSubmit, h1, h2]⟩
      · rcases h with h | h | h
        · exact absurd h h1
        · exact absurd (by simp [jsFalsy, h]) h2
        · exact ⟨s, "No network connection. Please try again later.", by simp [handleSubmit, h1, h2, h]⟩
  obtain ⟨s', m, hk⟩ := key
  rw [hk]
  exact ⟨⟨m, rfl⟩, rfl, rfl⟩

theorem handleSubmit_validation_blocks_witness :
    (∃ m, (handleSubmit ⟨"   ", some "photo.jpg", false, [], true⟩ envAllOk).alerts
        = [("Error", m)]) ∧
    (handleSubmit ⟨"   ", some "photo.jpg", false, [], true⟩ envAllOk).uploadCalls = [] ∧
    (handleSubmit ⟨"   ", some "photo.jpg", false, [], true⟩ envAllOk).insertCalls = [] :=
  handleSubmit_validation_blocks _ _ (Or.inl (by decide))

/-- C2: whenever the fetched blob's byte size strictly exceeds 5,242,880
bytes, `handleSubmit` shows the size-limit message, clears the uploading
flag, and issues no storage upload, no public-URL retrieval and no
database insert. -/
theorem handleSubmit_size_limit_blocks (s : AppState) (env : SubmitEnv)
    (h1 : jsTrim s.name ≠ "") (h2 : jsFalsy s.image = false) (h3 : s.isConnected = true)
    (h4 : (env.fetchImage (s.image.getD "")).ok = true)
    (h5 : 5 * 1024 * 1024 < (env.fetchImage (s.image.getD "")).size) :
    (handleSubmit s env).alerts = [("Error", "Image size must be less than 5MB")] ∧
    (handleSubmit s env).state.uploading = false ∧
    (handleSubmit s env).uploadCalls = [] ∧
    (handleSubmit s env).publicUrlCalls = [] ∧
    (handleSubmit s env).insertCalls = [] := by
  have hres : handleSubmit s env =
      noCallResult { s with uploading := false }
        ("Error", "Image size must be less than 5MB") := by
    simp [handleSubmit, h1, h2, h3, h4, h5]
  rw [hres]
  exact ⟨rfl, rfl, rfl, rfl, rfl⟩

theorem handleSubmit_size_limit_blocks_witness :
    (handleSubmit draftOk envBigBlob).alerts
      = [("Error", "Image size must be less than 5MB")] ∧
    (handleSubmit draftOk envBigBlob).state.uploading = false ∧
    (handleSubmit draftOk envBigBlob).uploadCalls = [] ∧
    (handleSubmit draftOk envBigBlob).publicUrlCalls = [] ∧
    (handleSubmit draftOk envBigBlob).insertCalls = [] :=
  handleSubmit_size_limit_blocks draftOk envBigBlob (by decide) (by decide) rfl rfl
    (by decide)

/-- C5: when the remote query returns an error, `fetchSubmissions` leaves
the in-memory submissions list exactly as it was and shows an error
notice. -/
theorem fetchSubmissions_error_preserves_list (prev : List Submission)
    (data : Option (List Submission)) (e : String) :
    (fetchSubmissions prev data (some e)).submissions = prev ∧
    (fetchSubmissions prev data (some e)).alerts =
      [("Error", jsOr e "Failed to load submissions")] :=
  ⟨rfl, rfl⟩

/-- C6: when the remote query succeeds with record set `R`,
`fetchSubmissions` replaces the in-memory list wholesale by `R`, and the
request it issues asks for all rows of `form_submissions` ordered by
`created_at` descending. -/
theorem fetchSubmissions_success_replaces_list (prev R : List Submission) :
    (fetchSubmissions prev (some R) none).submissions = R ∧
    (fetchSubmissions prev (some R) none).alerts = [] ∧
    (fetchSubmissions prev (some R) none).request.table = "form_submissions" ∧
    (fetchSubmissions prev (some R) none).request.selectCols = "*" ∧
    (fetchSubmissions prev (some R) none).request.orderBy = "created_at" ∧
    (fetchSubmissions prev (some R) none).request.ascending = false :=
  ⟨rfl, rfl, rfl, rfl, rfl, rfl⟩

/-- C9: a cancelled picker result (or one with no asset array) leaves the
draft's image reference unchanged, and only a non-cancelled result with a
non-empty asset array updates it. -/
theorem pickImage_cancel_preserves_image (result : ImagePickerResult)
    (image : Option String) :
    ((result.canceled = true ∨ result.assets = none) →
      pickImage result image = Except.ok image) ∧
    (∀ out, pickImage result image = Except.ok out → out ≠ image →
      result.canceled = false ∧
      ∃ a rest, result.assets = some (a :: rest) ∧ out = some a.uri) := by
  constructor
  · rintro (h | h)
    · simp [pickImage, h]
    · by_cases hc : result.canceled <;> simp [pickImage, h, hc]
  · intro out hout hne
    by_cases hc : result.canceled
    · simp [pickImage, hc] at hout
      exact absurd hout.symm hne
    · cases ha : result.assets with
      | none =>
        simp [pickImage, hc, ha] at hout
        exact absurd hout.symm hne
      | some l =>
        cases l with
        | nil => simp [pickImage, hc, ha] at hout
        | cons a rest =>
          simp [pickImage, hc, ha] at hout
          exact ⟨by simpa using hc, a, rest, rfl, hout.symm⟩

theorem pickImage_cancel_preserves_image_witness :
    pickImage ⟨true, none⟩ (some "file:///prior.jpg")
      = Except.ok (some "file:///prior.jpg") :=
  (pickImage_cancel_preserves_image ⟨true, none⟩ (some "file:///prior.jpg")).1
    (Or.inl rfl)

/-- C3: when the storage upload and the database insert both succeed, the
draft is cleared (name reset to `""`, image reference reset to `none`), a
success notice is shown, and the submission-list re-fetch is triggered. -/
theorem handleSubmit_success_resets_draft (s : AppState) (env : SubmitEnv)
    (h1 : jsTrim s.name ≠ "") (h2 : jsFalsy s.image = false) (h3 : s.isConnected = true)
    (h4 : (env.fetchImage (s.image.getD "")).ok = true)
    (h5 : (env.fetchImage (s.image.getD "")).size ≤ 5 * 1024 * 1024)
    (h6 : env.uploadResult "form_images"
      (toString env.now ++ "." ++ jsSplitPop '.' (s.image.getD ""))
      (env.fetchImage (s.image.getD "")).size = none)
    (h7 : env.insertResult "form_submissions"
      ⟨s.name, env.getPublicUrl "form_images"
        (toString env.now ++ "." ++ jsSplitPop '.' (s.image.getD ""))⟩ = none) :
    (handleSubmit s env).state.name = "" ∧
    (handleSubmit s env).state.image = none ∧
    (handleSubmit s env).alerts = [("Success", "Your information has been saved!")] ∧
    (handleSubmit s env).fetchTriggered = true := by
  have h5' : ¬ 5 * 1024 * 1024 < (env.fetchImage (s.image.getD "")).size :=
    Nat.not_lt.mpr h5
  simp [handleSubmit, h1, h2, h3, h4, h5', h6, h7]

theorem handleSubmit_success_resets_draft_witness :
    (handleSubmit draftOk envAllOk).state.name = "" ∧
    (handleSubmit draftOk envAllOk).state.image = none ∧
    (handleSubmit draftOk envAllOk).alerts
      = [("Success", "Your information has been saved!")] ∧
    (handleSubmit draftOk envAllOk).fetchTriggered = true :=
  handleSubmit_success_resets_draft draftOk envAllOk (by decide) (by decide) rfl rfl
    (by decide) rfl rfl

/-- C4: when the storage upload succeeds but the database insert returns an
error, the draft state is not reset — `name` and `image` keep the values
they had at submit time — and an error message is surfaced. -/
theorem handleSubmit_insert_failure_preserves_draft (s : AppState) (env : SubmitEnv)
    (e : String)
    (h1 : jsTrim s.name ≠ "") (h2 : jsFalsy s.image = false) (h3 : s.isConnected = true)
    (h4 : (env.fetchImage (s.image.getD "")).ok = true)
    (h5 : (env.fetchImage (s.image.getD "")).size ≤ 5 * 1024 * 1024)
    (h6 : env.uploadResult "form_images"
      (toString env.now ++ "." ++ jsSplitPop '.' (s.image.getD ""))
      (env.fetchImage (s.image.getD "")).size = none)
    (h7 : env.insertResult "form_submissions"
      ⟨s.name, env.getPublicUrl "form_images"
        (toString env.now ++ "." ++ jsSplitPop '.' (s.image.getD ""))⟩ = some e) :
    (handleSubmit s env).state.name = s.name ∧
    (handleSubmit s env).state.image = s.image ∧
    (handleSubmit s env).alerts = [("Error", jsOr e submitFallbackMsg)] ∧
    (handleSubmit s env).fetchTriggered = false := by
  have h5' : ¬ 5 * 1024 * 1024 < (env.fetchImage (s.image.getD "")).size :=
    Nat.not_lt.mpr h5
  simp [handleSubmit, h1, h2, h3, h4, h5', h6, h7]

theorem handleSubmit_insert_failure_preserves_draft_witness :
    (handleSubmit draftOk envInsertFail).state.name = draftOk.name ∧
    (handleSubmit draftOk envInsertFail).state.image = draftOk.image ∧
    (handleSubmit draftOk envInsertFail).alerts
      = [("Error", jsOr "permission denied" submitFallbackMsg)] ∧
    (handleSubmit draftOk envInsertFail).fetchTriggered = false :=
  handleSubmit_insert_failure_preserves_draft draftOk envInsertFail "permission denied"
    (by decide) (by decide) rfl rfl (by decide) rfl rfl

/-- C7: when the blob stage is reached, the storage key used for the upload
is `Date.now()` followed by a dot and the original extension — the suffix
of the image URI after its last `'.'` — and every public-URL retrieval
uses that same key. -/
theorem handleSubmit_storage_key (s : AppState) (env : SubmitEnv)
    (l1 l2 : List Char)
    (hdec : (s.image.getD "").data = l1 ++ '.' :: l2) (hl2 : '.' ∉ l2)
    (h1 : jsTrim s.name ≠ "") (h2 : jsFalsy s.image = false) (h3 : s.isConnected = true)
    (h4 : (env.fetchImage (s.image.getD "")).ok = true)
    (h5 : (env.fetchImage (s.image.getD "")).size ≤ 5 * 1024 * 1024) :
    (handleSubmit s env).uploadCalls =
      [⟨"form_images", toString env.now ++ "." ++ String.mk l2,
        (env.fetchImage (s.image.getD "")).size⟩] ∧
    ∀ c ∈ (handleSubmit s env).publicUrlCalls,
      c = ⟨"form_images", toString env.now ++ "." ++ String.mk l2⟩ := by
  have hext : jsSplitPop '.' (s.image.getD "") = String.mk l2 := by
    unfold jsSplitPop
    rw [hdec, splitChar_getLastD '.' l1 l2 hl2]
  have h5' : ¬ 5 * 1024 * 1024 < (env.fetchImage (s.image.getD "")).size :=
    Nat.not_lt.mpr h5
  rcases hu : env.uploadResult "form_images"
      (toString env.now ++ "." ++ jsSplitPop '.' (s.image.getD ""))
      (env.fetchImage (s.image.getD "")).size with _ | e
  · rcases hi : env.insertResult "form_submissions"
        ⟨s.name, env.getPublicUrl "form_images"
          (toString env.now ++ "." ++ jsSplitPop '.' (s.image.getD ""))⟩ with _ | e
    · constructor
      · simp [handleSubmit, h1, h2, h3, h4, h5', hu, hi, hext.symm]
      · intro c hc
        simp [handleSubmit, h1, h2, h3, h4, h5', hu, hi] at hc
        simp [hc, hext]
    · constructor
      · simp [handleSubmit, h1, h2, h3, h4, h5', hu, hi, hext.symm]
      · intro c hc
        simp [handleSubmit, h1, h2, h3, h4, h5', hu, hi] at hc
        simp [hc, hext]
  · constructor
    · simp [handleSubmit, h1, h2, h3, h4, h5', hu, hext.symm]
    · intro c hc
      simp [handleSubmit, h1, h2, h3, h4, h5', hu, hext.symm] at hc

theorem handleSubmit_storage_key_witness :
    (handleSubmit draftOk envAllOk).uploadCalls =
      [⟨"form_images", toString envAllOk.now ++ "." ++ String.mk "jpg".data,
        (envAllOk.fetchImage (draftOk.image.getD "")).size⟩] ∧
    ∀ c ∈ (handleSubmit draftOk envAllOk).publicUrlCalls,
      c = ⟨"form_images", toString envAllOk.now ++ "." ++ String.mk "jpg".data⟩ :=
  handleSubmit_storage_key draftOk envAllOk "file:///photos/cat".data "jpg".data
    (by decide) (by decide) (by decide) (by decide) rfl rfl (by decide)

/-- C8: every record passed to the database insert call has a non-blank
name — the raw name that passed the non-whitespace validation — and its
`image_url` is the public URL the object store returned for the uploaded
key (non-empty whenever the store's URLs are non-empty). -/
theorem handleSubmit_insert_record_invariant (s : AppState) (env : SubmitEnv)
    (hurl : ∀ b p, env.getPublicUrl b p ≠ "")
    (c : InsertCall) (hc : c ∈ (handleSubmit s env).insertCalls) :
    c.table = "form_submissions" ∧
    jsTrim c.record.name ≠ "" ∧ c.record.name ≠ "" ∧
    c.record.image_url ≠ "" ∧
    ∃ u ∈ (handleSubmit s env).uploadCalls,
      c.record.image_url = env.getPublicUrl u.bucket u.path := by
  by_cases h1 : jsTrim s.name = ""
  · simp [handleSubmit, h1, noCallResult] at hc
  by_cases h2 : jsFalsy s.image
  · simp [handleSubmit, h1, h2, noCallResult] at hc
  by_cases h3 : s.isConnected = false
  · simp [handleSubmit, h1, h2, h3, noCallResult] at hc
  by_cases h4 : (env.fetchImage (s.image.getD "")).ok = false
  · simp [handleSubmit, h1, h2, h3, h4, noCallResult] at hc
  by_cases h5 : 5 * 1024 * 1024 < (env.fetchImage (s.image.getD "")).size
  · simp [handleSubmit, h1, h2, h3, h4, h5, noCallResult] at hc
  rcases hu : env.uploadResult "form_images"
      (toString env.now ++ "." ++ jsSplitPop '.' (s.image.getD ""))
      (env.fetchImage (s.image.getD "")).size with _ | e
  · rcases hi : env.insertResult "form_submissions"
        ⟨s.name, env.getPublicUrl "form_images"
          (toString env.now ++ "." ++ jsSplitPop '.' (s.image.getD ""))⟩ with _ | e
    · simp [handleSubmit, h1, h2, h3, h4, h5, hu, hi] at hc
      subst hc
      refine ⟨rfl, h1, ne_empty_of_trim_ne_empty h1, hurl _ _, ?_⟩
      simp [handleSubmit, h1, h2, h3, h4, h5, hu, hi]
    · simp [handleSubmit, h1, h2, h3, h4, h5, hu, hi] at hc
      subst hc
      refine ⟨rfl, h1, ne_empty_of_trim_ne_empty h1, hurl _ _, ?_⟩
      simp [handleSubmit, h1, h2, h3, h4, h5, hu, hi]
  · simp [handleSubmit, h1, h2, h3, h4, h5, hu] at hc

theorem handleSubmit_insert_record_invariant_witness :
    demoInsertCall.table = "form_submissions" ∧
    jsTrim demoInsertCall.record.name ≠ "" ∧
    demoInsertCall.record.name ≠ "" ∧
    demoInsertCall.record.image_url ≠ "" ∧
    ∃ u ∈ (handleSubmit draftOk envAllOk).uploadCalls,
      demoInsertCall.record.image_url = envAllOk.getPublicUrl u.bucket u.path :=
  handleSubmit_insert_record_invariant draftOk envAllOk
    (fun _ _ => by show ("https://cdn.example/form_images/obj" : String) ≠ ""
                   decide)
    demoInsertCall (by decide)

/-- C10: the name stored on a successful upload is the raw name state, not
its trimmed form: when the submitted name carries leading or trailing
whitespace, the inserted record's name keeps it verbatim. -/
theorem handleSubmit_inserts_raw_name (s : AppState) (env : SubmitEnv)
    (h1 : jsTrim s.name ≠ "") (hws : jsTrim s.name ≠ s.name)
    (h2 : jsFalsy s.image = false) (h3 : s.isConnected = true)
    (h4 : (env.fetchImage (s.image.getD "")).ok = true)
    (h5 : (env.fetchImage (s.image.getD "")).size ≤ 5 * 1024 * 1024)
    (h6 : env.uploadResult "form_images"
      (toString env.now ++ "." ++ jsSplitPop '.' (s.image.getD ""))
      (env.fetchImage (s.image.getD "")).size = none) :
    ∃ url, (handleSubmit s env).insertCalls = [⟨"form_submissions", ⟨s.name, url⟩⟩] ∧
      ∀ c ∈ (handleSubmit s env).insertCalls,
        c.record.name = s.name ∧ jsTrim c.record.name ≠ c.record.name := by
  have h5' : ¬ 5 * 1024 * 1024 < (env.fetchImage (s.image.getD "")).size :=
    Nat.not_lt.mpr h5
  refine ⟨env.getPublicUrl "form_images"
    (toString env.now ++ "." ++ jsSplitPop '.' (s.image.getD "")), ?_, ?_⟩
  · rcases hi : env.insertResult "form_submissions"
        ⟨s.name, env.getPublicUrl "form_images"
          (toString env.now ++ "." ++ jsSplitPop '.' (s.image.getD ""))⟩ with _ | e
    · simp [handleSubmit, h1, h2, h3, h4, h5', h6, hi]
    · simp [handleSubmit, h1, h2, h3, h4, h5', h6, hi]
  · intro c hc
    rcases hi : env.insertResult "form_submissions"
        ⟨s.name, env.getPublicUrl "form_images"
          (toString env.now ++ "." ++ jsSplitPop '.' (s.image.getD ""))⟩ with _ | e
    · simp [handleSubmit, h1, h2, h3, h4, h5', h6, hi] at hc
      simp [hc, hws]
    · simp [handleSubmit, h1, h2, h3, h4, h5', h6, hi] at hc
      simp [hc, hws]

theorem handleSubmit_inserts_raw_name_witness :
    ∃ url, (handleSubmit ⟨"  Alice  ", some "file:///photos/cat.jpg", false, [], true⟩
        envAllOk).insertCalls = [⟨"form_submissions", ⟨"  Alice  ", url⟩⟩] ∧
      ∀ c ∈ (handleSubmit ⟨"  Alice  ", some "file:///photos/cat.jpg", false, [], true⟩
          envAllOk).insertCalls,
        c.record.name = "  Alice  " ∧ jsTrim c.record.name ≠ c.record.name :=
  handleSubmit_inserts_raw_name
    ⟨"  Alice  ", some "file:///photos/cat.jpg", false, [], true⟩ envAllOk
    (by decide) (by decide) (by decide) rfl rfl (by decide) rfl

end Expo
